import Mathlib

/-!
Verification of the `bitcoin-script` proc-macro crate (parser in `src/parse.rs`,
code generator in `src/generate.rs`).  The development shallowly embeds the two
modules: `proc_macro2` token trees become an inductive `TokenTree`, the parser
`parse` becomes a total function returning `Except` (the `emit_error!` and
`abort!` macros of `src/parse.rs` both end in `panic!`, i.e. they abort the
invocation, which `Except.error` models), and the generator becomes a function
into a small expression language `BuilderExpr` whose constructors are exactly
the builder calls the generated token stream performs.
-/

/-- Source span.  `proc_macro2::Span` is opaque; the parser only ever creates
spans with `token.span()` and merges them with `span.join(..)` (a hull).  We
model a span as a closed interval of positions. -/
structure Span where
  lo : Nat
  hi : Nat
deriving DecidableEq, Repr

/-- `Span::join` as used in `parse_escape`: `span.join(t.span()).unwrap_or(t.span())`.
On a single-file token stream the join succeeds and is the interval hull. -/
def spanJoin (a b : Span) : Span :=
  ⟨min a.lo b.lo, max a.hi b.hi⟩

/-- Model of `proc_macro2::TokenTree`: identifiers, single punctuation
characters, literals (carrying their `to_string()` text), and delimited
groups (one tree whose contents the parser never inspects: any group at the
top level hits the `unexpected token` arm). -/
inductive TokenTree where
  | ident : String → TokenTree
  | punct : Char → TokenTree
  | literal : String → TokenTree
  | group : List TokenTree → TokenTree

/-- A token: a tree plus its span (the iterator items of the input
`TokenStream`). -/
structure Token where
  tt : TokenTree
  span : Span

/-- Is the token the escape terminator, i.e. `(Punct(_), ">")`? -/
def isGt (t : Token) : Bool :=
  match t.tt with
  | .punct c => c = '>'
  | _ => false

/-- Is the token a `Literal(_)`?  (`parse_negative_int` accepts exactly
literal followers.) -/
def isLiteralTok (t : Token) : Bool :=
  match t.tt with
  | .literal _ => true
  | _ => false

/-- An opcode: `bitcoin::blockdata::opcodes::All` is a wrapped `u8`. -/
abbrev Opcode : Type := Fin 256

/-- Modelled from the spec: the canonical display name of each opcode, i.e.
the external `format!("{:?}", Opcode::from(i))` of the `bitcoin` crate (an
out-of-scope collaborator; only the loop building the table is repository
code).  Push-byte, push-num and unused-return opcodes have numbered names;
the remaining codes have individual names. -/
def opcodeName (n : Nat) : String :=
  if n ≤ 75 then "OP_PUSHBYTES_" ++ toString n
  else if 186 ≤ n ∧ n ≤ 254 then "OP_RETURN_" ++ toString n
  else if 81 ≤ n ∧ n ≤ 96 then "OP_PUSHNUM_" ++ toString (n - 80)
  else match n with
  | 76 => "OP_PUSHDATA1"
  | 77 => "OP_PUSHDATA2"
  | 78 => "OP_PUSHDATA4"
  | 79 => "OP_PUSHNUM_NEG1"
  | 80 => "OP_RESERVED"
  | 97 => "OP_NOP"
  | 98 => "OP_VER"
  | 99 => "OP_IF"
  | 100 => "OP_NOTIF"
  | 101 => "OP_VERIF"
  | 102 => "OP_VERNOTIF"
  | 103 => "OP_ELSE"
  | 104 => "OP_ENDIF"
  | 105 => "OP_VERIFY"
  | 106 => "OP_RETURN"
  | 107 => "OP_TOALTSTACK"
  | 108 => "OP_FROMALTSTACK"
  | 109 => "OP_2DROP"
  | 110 => "OP_2DUP"
  | 111 => "OP_3DUP"
  | 112 => "OP_2OVER"
  | 113 => "OP_2ROT"
  | 114 => "OP_2SWAP"
  | 115 => "OP_IFDUP"
  | 116 => "OP_DEPTH"
  | 117 => "OP_DROP"
  | 118 => "OP_DUP"
  | 119 => "OP_NIP"
  | 120 => "OP_OVER"
  | 121 => "OP_PICK"
  | 122 => "OP_ROLL"
  | 123 => "OP_ROT"
  | 124 => "OP_SWAP"
  | 125 => "OP_TUCK"
  | 126 => "OP_CAT"
  | 127 => "OP_SUBSTR"
  | 128 => "OP_LEFT"
  | 129 => "OP_RIGHT"
  | 130 => "OP_SIZE"
  | 131 => "OP_INVERT"
  | 132 => "OP_AND"
  | 133 => "OP_OR"
  | 134 => "OP_XOR"
  | 135 => "OP_EQUAL"
  | 136 => "OP_EQUALVERIFY"
  | 137 => "OP_RESERVED1"
  | 138 => "OP_RESERVED2"
  | 139 => "OP_1ADD"
  | 140 => "OP_1SUB"
  | 141 => "OP_2MUL"
  | 142 => "OP_2DIV"
  | 143 => "OP_NEGATE"
  | 144 => "OP_ABS"
  | 145 => "OP_NOT"
  | 146 => "OP_0NOTEQUAL"
  | 147 => "OP_ADD"
  | 148 => "OP_SUB"
  | 149 => "OP_MUL"
  | 150 => "OP_DIV"
  | 151 => "OP_MOD"
  | 152 => "OP_LSHIFT"
  | 153 => "OP_RSHIFT"
  | 154 => "OP_BOOLAND"
  | 155 => "OP_BOOLOR"
  | 156 => "OP_NUMEQUAL"
  | 157 => "OP_NUMEQUALVERIFY"
  | 158 => "OP_NUMNOTEQUAL"
  | 159 => "OP_LESSTHAN"
  | 160 => "OP_GREATERTHAN"
  | 161 => "OP_LESSTHANOREQUAL"
  | 162 => "OP_GREATERTHANOREQUAL"
  | 163 => "OP_MIN"
  | 164 => "OP_MAX"
  | 165 => "OP_WITHIN"
  | 166 => "OP_RIPEMD160"
  | 167 => "OP_SHA1"
  | 168 => "OP_SHA256"
  | 169 => "OP_HASH160"
  | 170 => "OP_HASH256"
  | 171 => "OP_CODESEPARATOR"
  | 172 => "OP_CHECKSIG"
  | 173 => "OP_CHECKSIGVERIFY"
  | 174 => "OP_CHECKMULTISIG"
  | 175 => "OP_CHECKMULTISIGVERIFY"
  | 176 => "OP_NOP1"
  | 177 => "OP_CLTV"
  | 178 => "OP_CSV"
  | 179 => "OP_NOP4"
  | 180 => "OP_NOP5"
  | 181 => "OP_NOP6"
  | 182 => "OP_NOP7"
  | 183 => "OP_NOP8"
  | 184 => "OP_NOP9"
  | 185 => "OP_NOP10"
  | _ => "OP_INVALIDOPCODE"

/-- The `lazy_static` table of `src/parse.rs`: for `i` in `0..=255`, insert
`(format!("{:?}", Opcode::from(i)), Opcode::from(i))` into a `HashMap`
(`Opcode::from` is the `u8` conversion, modelled by `Fin.ofNat`).  The map
is modelled as the association list in insertion order; a `HashMap` lookup
returns the most recently inserted binding of a key. -/
def OPCODES : List (String × Opcode) :=
  (List.range 256).map (fun i => (opcodeName i, (Fin.ofNat i : Fin 256)))

/-- `OPCODES.get(&name)`: the last-inserted binding whose key equals `name`. -/
def opcodeLookup (name : String) : Option Opcode :=
  (OPCODES.reverse.find? (fun p => p.1 == name)).map Prod.snd

/-- The 256 canonical opcode names, written out: `opcodeName` evaluated on
`0..=255` (proved equal below), so that distinctness of the table's keys can
be checked on literals. -/
def opcodeNames : List String :=
  ["OP_PUSHBYTES_0",
   "OP_PUSHBYTES_1",
   "OP_PUSHBYTES_2",
   "OP_PUSHBYTES_3",
   "OP_PUSHBYTES_4",
   "OP_PUSHBYTES_5",
   "OP_PUSHBYTES_6",
   "OP_PUSHBYTES_7",
   "OP_PUSHBYTES_8",
   "OP_PUSHBYTES_9",
   "OP_PUSHBYTES_10",
   "OP_PUSHBYTES_11",
   "OP_PUSHBYTES_12",
   "OP_PUSHBYTES_13",
   "OP_PUSHBYTES_14",
   "OP_PUSHBYTES_15",
   "OP_PUSHBYTES_16",
   "OP_PUSHBYTES_17",
   "OP_PUSHBYTES_18",
   "OP_PUSHBYTES_19",
   "OP_PUSHBYTES_20",
   "OP_PUSHBYTES_21",
   "OP_PUSHBYTES_22",
   "OP_PUSHBYTES_23",
   "OP_PUSHBYTES_24",
   "OP_PUSHBYTES_25",
   "OP_PUSHBYTES_26",
   "OP_PUSHBYTES_27",
   "OP_PUSHBYTES_28",
   "OP_PUSHBYTES_29",
   "OP_PUSHBYTES_30",
   "OP_PUSHBYTES_31",
   "OP_PUSHBYTES_32",
   "OP_PUSHBYTES_33",
   "OP_PUSHBYTES_34",
   "OP_PUSHBYTES_35",
   "OP_PUSHBYTES_36",
   "OP_PUSHBYTES_37",
   "OP_PUSHBYTES_38",
   "OP_PUSHBYTES_39",
   "OP_PUSHBYTES_40",
   "OP_PUSHBYTES_41",
   "OP_PUSHBYTES_42",
   "OP_PUSHBYTES_43",
   "OP_PUSHBYTES_44",
   "OP_PUSHBYTES_45",
   "OP_PUSHBYTES_46",
   "OP_PUSHBYTES_47",
   "OP_PUSHBYTES_48",
   "OP_PUSHBYTES_49",
   "OP_PUSHBYTES_50",
   "OP_PUSHBYTES_51",
   "OP_PUSHBYTES_52",
   "OP_PUSHBYTES_53",
   "OP_PUSHBYTES_54",
   "OP_PUSHBYTES_55",
   "OP_PUSHBYTES_56",
   "OP_PUSHBYTES_57",
   "OP_PUSHBYTES_58",
   "OP_PUSHBYTES_59",
   "OP_PUSHBYTES_60",
   "OP_PUSHBYTES_61",
   "OP_PUSHBYTES_62",
   "OP_PUSHBYTES_63",
   "OP_PUSHBYTES_64",
   "OP_PUSHBYTES_65",
   "OP_PUSHBYTES_66",
   "OP_PUSHBYTES_67",
   "OP_PUSHBYTES_68",
   "OP_PUSHBYTES_69",
   "OP_PUSHBYTES_70",
   "OP_PUSHBYTES_71",
   "OP_PUSHBYTES_72",
   "OP_PUSHBYTES_73",
   "OP_PUSHBYTES_74",
   "OP_PUSHBYTES_75",
   "OP_PUSHDATA1",
   "OP_PUSHDATA2",
   "OP_PUSHDATA4",
   "OP_PUSHNUM_NEG1",
   "OP_RESERVED",
   "OP_PUSHNUM_1",
   "OP_PUSHNUM_2",
   "OP_PUSHNUM_3",
   "OP_PUSHNUM_4",
   "OP_PUSHNUM_5",
   "OP_PUSHNUM_6",
   "OP_PUSHNUM_7",
   "OP_PUSHNUM_8",
   "OP_PUSHNUM_9",
   "OP_PUSHNUM_10",
   "OP_PUSHNUM_11",
   "OP_PUSHNUM_12",
   "OP_PUSHNUM_13",
   "OP_PUSHNUM_14",
   "OP_PUSHNUM_15",
   "OP_PUSHNUM_16",
   "OP_NOP",
   "OP_VER",
   "OP_IF",
   "OP_NOTIF",
   "OP_VERIF",
   "OP_VERNOTIF",
   "OP_ELSE",
   "OP_ENDIF",
   "OP_VERIFY",
   "OP_RETURN",
   "OP_TOALTSTACK",
   "OP_FROMALTSTACK",
   "OP_2DROP",
   "OP_2DUP",
   "OP_3DUP",
   "OP_2OVER",
   "OP_2ROT",
   "OP_2SWAP",
   "OP_IFDUP",
   "OP_DEPTH",
   "OP_DROP",
   "OP_DUP",
   "OP_NIP",
   "OP_OVER",
   "OP_PICK",
   "OP_ROLL",
   "OP_ROT",
   "OP_SWAP",
   "OP_TUCK",
   "OP_CAT",
   "OP_SUBSTR",
   "OP_LEFT",
   "OP_RIGHT",
   "OP_SIZE",
   "OP_INVERT",
   "OP_AND",
   "OP_OR",
   "OP_XOR",
   "OP_EQUAL",
   "OP_EQUALVERIFY",
   "OP_RESERVED1",
   "OP_RESERVED2",
   "OP_1ADD",
   "OP_1SUB",
   "OP_2MUL",
   "OP_2DIV",
   "OP_NEGATE",
   "OP_ABS",
   "OP_NOT",
   "OP_0NOTEQUAL",
   "OP_ADD",
   "OP_SUB",
   "OP_MUL",
   "OP_DIV",
   "OP_MOD",
   "OP_LSHIFT",
   "OP_RSHIFT",
   "OP_BOOLAND",
   "OP_BOOLOR",
   "OP_NUMEQUAL",
   "OP_NUMEQUALVERIFY",
   "OP_NUMNOTEQUAL",
   "OP_LESSTHAN",
   "OP_GREATERTHAN",
   "OP_LESSTHANOREQUAL",
   "OP_GREATERTHANOREQUAL",
   "OP_MIN",
   "OP_MAX",
   "OP_WITHIN",
   "OP_RIPEMD160",
   "OP_SHA1",
   "OP_SHA256",
   "OP_HASH160",
   "OP_HASH256",
   "OP_CODESEPARATOR",
   "OP_CHECKSIG",
   "OP_CHECKSIGVERIFY",
   "OP_CHECKMULTISIG",
   "OP_CHECKMULTISIGVERIFY",
   "OP_NOP1",
   "OP_CLTV",
   "OP_CSV",
   "OP_NOP4",
   "OP_NOP5",
   "OP_NOP6",
   "OP_NOP7",
   "OP_NOP8",
   "OP_NOP9",
   "OP_NOP10",
   "OP_RETURN_186",
   "OP_RETURN_187",
   "OP_RETURN_188",
   "OP_RETURN_189",
   "OP_RETURN_190",
   "OP_RETURN_191",
   "OP_RETURN_192",
   "OP_RETURN_193",
   "OP_RETURN_194",
   "OP_RETURN_195",
   "OP_RETURN_196",
   "OP_RETURN_197",
   "OP_RETURN_198",
   "OP_RETURN_199",
   "OP_RETURN_200",
   "OP_RETURN_201",
   "OP_RETURN_202",
   "OP_RETURN_203",
   "OP_RETURN_204",
   "OP_RETURN_205",
   "OP_RETURN_206",
   "OP_RETURN_207",
   "OP_RETURN_208",
   "OP_RETURN_209",
   "OP_RETURN_210",
   "OP_RETURN_211",
   "OP_RETURN_212",
   "OP_RETURN_213",
   "OP_RETURN_214",
   "OP_RETURN_215",
   "OP_RETURN_216",
   "OP_RETURN_217",
   "OP_RETURN_218",
   "OP_RETURN_219",
   "OP_RETURN_220",
   "OP_RETURN_221",
   "OP_RETURN_222",
   "OP_RETURN_223",
   "OP_RETURN_224",
   "OP_RETURN_225",
   "OP_RETURN_226",
   "OP_RETURN_227",
   "OP_RETURN_228",
   "OP_RETURN_229",
   "OP_RETURN_230",
   "OP_RETURN_231",
   "OP_RETURN_232",
   "OP_RETURN_233",
   "OP_RETURN_234",
   "OP_RETURN_235",
   "OP_RETURN_236",
   "OP_RETURN_237",
   "OP_RETURN_238",
   "OP_RETURN_239",
   "OP_RETURN_240",
   "OP_RETURN_241",
   "OP_RETURN_242",
   "OP_RETURN_243",
   "OP_RETURN_244",
   "OP_RETURN_245",
   "OP_RETURN_246",
   "OP_RETURN_247",
   "OP_RETURN_248",
   "OP_RETURN_249",
   "OP_RETURN_250",
   "OP_RETURN_251",
   "OP_RETURN_252",
   "OP_RETURN_253",
   "OP_RETURN_254",
   "OP_INVALIDOPCODE"]

/-- A numeric fingerprint of a string, injective by construction (base
exceeds every code point), used to decide name distinctness cheaply. -/
def strKey (s : String) : Nat :=
  s.data.foldl (fun a c => a * 1114112 + c.toNat) 0

/-- The `Syntax` enum of `src/parse.rs` (`Opcode`, `Escape`, `Bytes`,
`Int`).  An escape payload is the raw captured token sub-sequence, never
interpreted. -/
inductive SyntaxNode where
  | opcode : Opcode → SyntaxNode
  | escape : List Token → SyntaxNode
  | bytes : List Nat → SyntaxNode
  | int : Int → SyntaxNode

/-- Is the node an `Escape`? -/
def isEscapeNode : SyntaxNode → Bool
  | .escape _ => true
  | _ => false

/-- The six diagnostics of `src/parse.rs`, each carrying the span it is
emitted at.  In the source, `emit_error!` records the diagnostic and then
`panic!`s and `abort!` panics directly, so every one of them ends the parse
invocation; `Except.error` models that. -/
inductive PError where
  | unknownOpcode : Span → String → PError
  | unterminatedEscape : Span → PError
  | invalidHexLiteral : Span → PError
  | invalidNumberLiteral : Span → PError
  | malformedNegation : Span → PError
  | unexpectedToken : Span → PError
deriving DecidableEq, Repr

/-- Value of a hexadecimal digit, as accepted by `hex::decode`. -/
def hexVal (c : Char) : Option Nat :=
  if '0' ≤ c ∧ c ≤ '9' then some (c.toNat - 48)
  else if 'a' ≤ c ∧ c ≤ 'f' then some (c.toNat - 87)
  else if 'A' ≤ c ∧ c ≤ 'F' then some (c.toNat - 55)
  else none

/-- `hex::decode`: an even number of hex digits, two digits per output
byte; `none` on odd length or any non-hex character. -/
def hexDecodeChars : List Char → Option (List Nat)
  | [] => some []
  | [_] => none
  | c1 :: c2 :: rest =>
    match hexVal c1, hexVal c2, hexDecodeChars rest with
    | some h, some l, some bs => some ((16 * h + l) :: bs)
    | _, _, _ => none

/-- Digit run to a number, most significant first. -/
def digitsToNat (l : List Char) : Nat :=
  l.foldl (fun a c => 10 * a + (c.toNat - 48)) 0

/-- One or more decimal digits, else `none`. -/
def parseDigits (l : List Char) : Option Nat :=
  if l ≠ [] ∧ l.all Char.isDigit then some (digitsToNat l) else none

/-- Rust `str::parse::<i64>()`: optional sign, one or more decimal digits,
nothing else, and the value must fit in `i64`. -/
def parseI64Chars : List Char → Option Int
  | '-' :: r =>
    match parseDigits r with
    | some n => if (n : Int) ≤ 2 ^ 63 then some (-(n : Int)) else none
    | none => none
  | '+' :: r =>
    match parseDigits r with
    | some n => if (n : Int) ≤ 2 ^ 63 - 1 then some (n : Int) else none
    | none => none
  | l =>
    match parseDigits l with
    | some n => if (n : Int) ≤ 2 ^ 63 - 1 then some (n : Int) else none
    | none => none

/-- `token_str.parse::<i64>()` on a token's text. -/
def parseI64 (s : String) : Option Int := parseI64Chars s.data

/-- `token.to_string().starts_with("0x")` (dispatch inside `parse_data`). -/
def hexPrefixed (s : String) : Bool :=
  match s.data with
  | '0' :: 'x' :: _ => true
  | _ => false

/-- `parse_bytes`: strip the two-character `0x` prefix (`&token_str[2..]`)
and `hex::decode` the remainder; failure is `InvalidHexLiteral`. -/
def parse_bytes (s : String) (sp : Span) : Except PError (SyntaxNode × Span) :=
  match hexDecodeChars (s.data.drop 2) with
  | none => .error (.invalidHexLiteral sp)
  | some bs => .ok (.bytes bs, sp)

/-- `parse_int`: parse the token text as `i64`, negate if under a `-` sign
(`n * -1`; the text of a tokenizer-produced literal carries no sign, so the
parsed value is never `i64::MIN` and the negation is exact); failure is
`InvalidNumberLiteral`. -/
def parse_int (s : String) (sp : Span) (negative : Bool) : Except PError (SyntaxNode × Span) :=
  match parseI64 s with
  | none => .error (.invalidNumberLiteral sp)
  | some n => .ok (.int (if negative then -n else n), sp)

/-- `parse_data`: hex-prefixed literals are byte pushes, all others are
decimal integers. -/
def parse_data (s : String) (sp : Span) : Except PError (SyntaxNode × Span) :=
  if hexPrefixed s then parse_bytes s sp else parse_int s sp false

/-- Scanner state.  `top` is the main `while let` loop of `parse`; `esc`
is inside the `loop` of `parse_escape` (error span of the opening `<`,
captured tokens in reverse, and the running joined span); `neg` is the
single-token lookahead of `parse_negative_int` (span of the `-`). -/
inductive Mode where
  | top : Mode
  | esc : Span → List Token → Span → Mode
  | neg : Span → Mode

/-- The parser of `src/parse.rs` as a state machine over the token list.
`top`/`esc`/`neg` correspond one-to-one to `parse`, the capture loop of
`parse_escape`, and the follower check of `parse_negative_int`; the match
arms below are the source's arms in source order. -/
def parseRun : Mode → List Token → Except PError (List (SyntaxNode × Span))
  | .top, [] => .ok []
  | .esc errSp _ _, [] => .error (.unterminatedEscape errSp)
  | .neg negSp, [] => .error (.malformedNegation negSp)
  | .top, t :: rest =>
    match t.tt with
    | .ident s =>
      match opcodeLookup s with
      | none => .error (.unknownOpcode t.span s)
      | some op => (parseRun .top rest).map (fun l => (.opcode op, t.span) :: l)
    | .punct c =>
      if c = '<' then parseRun (.esc t.span [] t.span) rest
      else if c = '-' then parseRun (.neg t.span) rest
      else .error (.unexpectedToken t.span)
    | .literal s =>
      match parse_data s t.span with
      | .error e => .error e
      | .ok x => (parseRun .top rest).map (fun l => x :: l)
    | .group _ => .error (.unexpectedToken t.span)
  | .esc errSp acc sp, t :: rest =>
    if isGt t then
      (parseRun .top rest).map
        (fun l => (.escape acc.reverse, spanJoin sp t.span) :: l)
    else parseRun (.esc errSp (t :: acc) (spanJoin sp t.span)) rest
  | .neg negSp, t :: rest =>
    match t.tt with
    | .literal s =>
      match parse_int s t.span true with
      | .error e => .error e
      | .ok x => (parseRun .top rest).map (fun l => x :: l)
    | _ => .error (.malformedNegation negSp)

/-- `parse(tokens)`: run the scanner from the main loop on the whole
stream. -/
def parse (tokens : List Token) : Except PError (List (SyntaxNode × Span)) :=
  parseRun .top tokens

/-!
### Code generator (`src/generate.rs`)

`generate` produces a token stream that is a chain of builder method calls.
The portable contract is that call sequence, so the embedding represents the
generated expression as a small AST: one constructor per builder call kind,
plus `shim`, the immediately-invoked two-argument dispatch closure that
`generate_escape` wraps around the accumulated chain and the escape payload.
-/

/-- The generated builder expression: `Builder::new()`, the three literal
push calls (with the `quote_spanned!` span each call carries), and the
escape shim applied to a previous chain and a verbatim payload. -/
inductive BuilderExpr where
  | newBuilder : BuilderExpr
  | pushOpcode : BuilderExpr → Opcode → Span → BuilderExpr
  | pushSlice : BuilderExpr → List Nat → Span → BuilderExpr
  | pushInt : BuilderExpr → Int → Span → BuilderExpr
  | shim : BuilderExpr → List Token → Span → BuilderExpr

/-- The finished generated expression: the chain with `.into_script()`
appended once at the end. -/
inductive ScriptExpr where
  | intoScript : BuilderExpr → ScriptExpr

/-- The chain inside the final `.into_script()` call. -/
def genBuilder : ScriptExpr → BuilderExpr
  | .intoScript b => b

/-- One iteration of the `for (item, span) in syntax` loop of `generate`:
`Opcode`/`Bytes`/`Int` append a push call to the running chain; `Escape`
moves the accumulated chain into the shim's first argument and the chain
restarts from the shim call's result. -/
def genStep (b : BuilderExpr) : SyntaxNode × Span → BuilderExpr
  | (.opcode op, sp) => .pushOpcode b op sp
  | (.bytes bs, sp) => .pushSlice b bs sp
  | (.int n, sp) => .pushInt b n sp
  | (.escape e, sp) => .shim b e sp

/-- `generate(syntax)`: start from `Builder::new()`, fold the nodes in
order, then append `.into_script()`. -/
def generate (prog : List (SyntaxNode × Span)) : ScriptExpr :=
  .intoScript (prog.foldl genStep .newBuilder)

/-- Number of shim closures in a generated chain (each `generate_escape`
call emits exactly one). -/
def shimCountB : BuilderExpr → Nat
  | .newBuilder => 0
  | .pushOpcode b _ _ => shimCountB b
  | .pushSlice b _ _ => shimCountB b
  | .pushInt b _ _ => shimCountB b
  | .shim b _ _ => shimCountB b + 1

/-- Number of `Escape` nodes in a parsed program. -/
def countEscapes (prog : List (SyntaxNode × Span)) : Nat :=
  prog.countP (fun x => isEscapeNode x.1)

/-- Read a chain back as the node list it pushes: succeeds exactly when the
chain is one `Builder::new()` followed by plain push calls (no shim), and
then returns the pushed nodes in order. -/
def readPushes : BuilderExpr → Option (List (SyntaxNode × Span))
  | .newBuilder => some []
  | .pushOpcode b op sp => (readPushes b).map (fun l => l ++ [(.opcode op, sp)])
  | .pushSlice b bs sp => (readPushes b).map (fun l => l ++ [(.bytes bs, sp)])
  | .pushInt b n sp => (readPushes b).map (fun l => l ++ [(.int n, sp)])
  | .shim _ _ _ => none

/-!
### The builder itself (external collaborator)

Modelled from the spec: the builder API (`newBuilder()`, `pushOpcode(op)`,
`pushInt(n)`, `pushBytes(bytes)`, `pushKey(key)`, `finalize() -> Script`) is
the external `bitcoin::blockdata::script::Builder`, out of scope per the
spec; only its call sequence is repository output.  To evaluate the
end-to-end fixture the pushes are modelled as what they append to the
accumulated script byte vector: minimal integer encoding and length-prefixed
data pushes, exactly the encoding the spec's canonical fixture bytes pin
down. -/
def builderPushOpcode (b : List Nat) (op : Nat) : List Nat :=
  b ++ [op]

/-- The length prefix of a data push: a direct length byte below 76, else
`OP_PUSHDATA1/2/4` with a little-endian length (sizes of 2^32 bytes and up
cannot occur here). -/
def pushSliceEnc (d : List Nat) : List Nat :=
  if d.length < 76 then d.length :: d
  else if d.length < 256 then 76 :: d.length :: d
  else if d.length < 65536 then 77 :: d.length % 256 :: d.length / 256 :: d
  else 78 :: d.length % 256 :: d.length / 256 % 256 ::
    d.length / 65536 % 256 :: d.length / 16777216 % 256 :: d

/-- `Builder::push_slice`. -/
def builderPushSlice (b : List Nat) (d : List Nat) : List Nat :=
  b ++ pushSliceEnc d

/-- The little-endian magnitude bytes of a script integer, with the sign
carried in the top bit of the last byte (an extra `0x00`/`0x80` byte when
the magnitude's top byte already has its high bit set).  Fuel-driven
version of the `while abs > 0xFF` loop; any fuel above the byte count of
`abs` gives the loop's result. -/
def scriptIntBytes (fuel : Nat) (neg : Bool) (abs : Nat) : List Nat :=
  match fuel with
  | 0 => []
  | fuel + 1 =>
    if 255 < abs then abs % 256 :: scriptIntBytes fuel neg (abs / 256)
    else if 128 ≤ abs then [abs, if neg then 128 else 0]
    else [if neg then abs + 128 else abs]

/-- `build_scriptint`: zero encodes as no bytes, otherwise the signed
little-endian form above. -/
def buildScriptInt (n : Int) : List Nat :=
  if n = 0 then [] else scriptIntBytes (n.natAbs + 1) (n < 0) n.natAbs

/-- `Builder::push_int`: `-1` and `1..=16` become the single opcodes
`0x4f`/`0x51..0x60`, `0` becomes `OP_0`, anything else a data push of the
script-integer encoding. -/
def builderPushInt (b : List Nat) (n : Int) : List Nat :=
  if n = -1 ∨ (1 ≤ n ∧ n ≤ 16) then builderPushOpcode b (n + 80).toNat
  else if n = 0 then builderPushOpcode b 0
  else builderPushSlice b (buildScriptInt n)

/-- A public key value, by its serialized bytes. -/
structure PublicKey where
  bytes : List Nat

/-- `Builder::push_key`: push the key's serialization as a data push. -/
def builderPushKey (b : List Nat) (k : PublicKey) : List Nat :=
  builderPushSlice b k.bytes

/-- The evaluated value of an escape payload, one variant per `Pushable`
impl that `generate_escape` emits inside the shim: `&[u8]`/`Vec<u8>`,
`i64`, and `bitcoin::PublicKey`. -/
inductive PushValue where
  | bytes : List Nat → PushValue
  | int : Int → PushValue
  | key : PublicKey → PushValue

/-- The shim's dispatch `fn push(builder, value)`: select the push call by
the value's kind. -/
def pushable (builder : List Nat) : PushValue → List Nat
  | .bytes bs => builderPushSlice builder bs
  | .int n => builderPushInt builder n
  | .key k => builderPushKey builder k

/-- Evaluate a generated chain to the script bytes it builds, given an
evaluation `env` for escape payloads (the host-language expressions the
generator forwards verbatim). -/
def evalBuilder (env : List Token → PushValue) : BuilderExpr → List Nat
  | .newBuilder => []
  | .pushOpcode b op _ => builderPushOpcode (evalBuilder env b) op.val
  | .pushSlice b bs _ => builderPushSlice (evalBuilder env b) bs
  | .pushInt b n _ => builderPushInt (evalBuilder env b) n
  | .shim b e _ => pushable (evalBuilder env b) (env e)

/-- Evaluate the finished expression; `.into_script()` keeps exactly the
accumulated bytes. -/
def evalScript (env : List Token → PushValue) : ScriptExpr → List Nat
  | .intoScript b => evalBuilder env b

/-!
### Totality of generation

`generate_opcode` builds `Ident::new(opcode.to_string(), span)`, which
panics on a string that is not a valid identifier.  `generateChecked`
carries that check; the totality claim is that it never fires. -/

/-- May a character start an identifier? -/
def isIdentStart (c : Char) : Bool := c.isAlpha || c = '_'

/-- May a character continue an identifier? -/
def isIdentCont (c : Char) : Bool := c.isAlphanum || c = '_'

/-- The validity check of `proc_macro2::Ident::new`. -/
def isValidIdent (s : String) : Bool :=
  match s.data with
  | [] => false
  | c :: cs => isIdentStart c && cs.all isIdentCont

/-- `genStep` with the `Ident::new` panic made explicit: the opcode case
fails if the opcode's display name is not a valid identifier. -/
def genStepChecked (b : Option BuilderExpr) (x : SyntaxNode × Span) : Option BuilderExpr :=
  match b with
  | none => none
  | some b =>
    match x with
    | (.opcode op, sp) =>
      if isValidIdent (opcodeName op.val) then some (.pushOpcode b op sp) else none
    | (.bytes bs, sp) => some (.pushSlice b bs sp)
    | (.int n, sp) => some (.pushInt b n sp)
    | (.escape e, sp) => some (.shim b e sp)

/-- `generate` with every fallible step surfaced. -/
def generateChecked (prog : List (SyntaxNode × Span)) : Option ScriptExpr :=
  (prog.foldl genStepChecked (some .newBuilder)).map .intoScript

/-- The token stream of the canonical fixture DSL program
`OP_HASH160 1234 255 -1 -255 0xabcd` (`tests/test.rs`, escape-free part),
with one position per token. -/
def fixtureTokens : List Token :=
  [⟨.ident "OP_HASH160", ⟨0, 0⟩⟩,
   ⟨.literal "1234", ⟨1, 1⟩⟩,
   ⟨.literal "255", ⟨2, 2⟩⟩,
   ⟨.punct '-', ⟨3, 3⟩⟩,
   ⟨.literal "1", ⟨4, 4⟩⟩,
   ⟨.punct '-', ⟨5, 5⟩⟩,
   ⟨.literal "255", ⟨6, 6⟩⟩,
   ⟨.literal "0xabcd", ⟨7, 7⟩⟩]

/-!
## Lemmas and claim theorems
-/

set_option maxRecDepth 10000

/-- `Except.map` on a success. -/
@[simp] theorem exceptMap_ok {ε α β : Type} (f : α → β) (a : α) :
    (Except.ok a : Except ε α).map f = .ok (f a) := rfl

/-- `Except.map` on an error. -/
@[simp] theorem exceptMap_error {ε α β : Type} (f : α → β) (e : ε) :
    (Except.error e : Except ε α).map f = .error e := rfl

/-- The table's keys, in insertion order, are `opcodeName` on `0..=255`. -/
theorem OPCODES_keys : OPCODES.map Prod.fst = (List.range 256).map opcodeName := by
  simp [OPCODES, List.map_map, Function.comp]

/-- The table's keys are exactly the literal list `opcodeNames`. -/
theorem OPCODES_keys_eval : OPCODES.map Prod.fst = opcodeNames := by
  rw [OPCODES_keys]; rfl

/-- The 256 canonical names are pairwise distinct (checked on the
injective numeric fingerprints of the literal names). -/
theorem opcodeNames_nodup : opcodeNames.Nodup := by
  have h : (opcodeNames.map strKey).Nodup := by decide
  exact h.of_map

/-- Every opcode's name occurs in the literal name list. -/
theorem opcodeName_mem_names (i : Nat) (hi : i < 256) : opcodeName i ∈ opcodeNames := by
  rw [← OPCODES_keys_eval, OPCODES_keys]
  exact List.mem_map_of_mem _ (List.mem_range.mpr hi)

/-- Last-inserted-wins lookup in an association list built over a range with
pairwise distinct keys: looking up the key of index `i` finds index `i`'s
binding. -/
theorem findLast_range_map (f : Nat → String) (g : Nat → Opcode) :
    ∀ n, (((List.range n).map f).Nodup) → ∀ i, i < n →
      ((((List.range n).map (fun j => (f j, g j))).reverse.find?
          (fun p => p.1 == f i)).map Prod.snd) = some (g i) := by
  intro n
  induction n with
  | zero => intro _ i hi; exact absurd hi (Nat.not_lt_zero i)
  | succ n ih =>
    intro hnd i hi
    rw [List.range_succ] at hnd ⊢
    rw [List.map_append] at hnd ⊢
    rw [List.reverse_append]
    simp only [List.map_cons, List.map_nil, List.reverse_cons, List.reverse_nil,
      List.nil_append, List.cons_append, List.singleton_append]
    rcases Nat.lt_succ_iff_lt_or_eq.mp hi with hlt | heq
    · rw [List.nodup_append] at hnd
      have hne : (f n == f i) = false := by
        have hfn : f n ∉ (List.range n).map f := by
          intro hmem
          exact hnd.2.2 hmem (by simp)
        have hfi : f i ∈ (List.range n).map f :=
          List.mem_map_of_mem _ (List.mem_range.mpr hlt)
        rw [beq_eq_false_iff_ne]
        intro hcontra
        exact hfn (hcontra ▸ hfi)
      rw [List.find?_cons_of_neg _ (by simp [hne])]
      exact ih hnd.1 i hlt
    · subst heq
      rw [List.find?_cons_of_pos _ (by simp)]
      rfl

/-- Looking up the canonical name of code `i` returns code `i`. -/
theorem opcodeLookup_name (i : Nat) (hi : i < 256) :
    opcodeLookup (opcodeName i) = some (Fin.ofNat i : Fin 256) := by
  have hnd : ((List.range 256).map opcodeName).Nodup := by
    rw [← OPCODES_keys, OPCODES_keys_eval]; exact opcodeNames_nodup
  exact findLast_range_map opcodeName (fun j => (Fin.ofNat j : Fin 256)) 256 hnd i hi

/-- A string that is no opcode's name is absent from the table. -/
theorem opcodeLookup_none (s : String) (h : ∀ i : Fin 256, opcodeName i.val ≠ s) :
    opcodeLookup s = none := by
  unfold opcodeLookup
  rw [List.find?_eq_none.mpr, Option.map_none']
  intro p hp
  rw [List.mem_reverse] at hp
  unfold OPCODES at hp
  rw [List.mem_map] at hp
  obtain ⟨i, hi, hpi⟩ := hp
  rw [List.mem_range] at hi
  have : p.1 = opcodeName i := by rw [← hpi]
  simp only [this, beq_iff_eq]
  exact h ⟨i, hi⟩

/-- Pushing one node through two layers of `Except.map`. -/
theorem mapCons_append_aux {α ε : Type} (x : α) (l2 : List α) (e : Except ε (List α)) :
    (e.map (fun l => l2 ++ l)).map (fun l => x :: l) = e.map (fun l => (x :: l2) ++ l) := by
  cases e <;> rfl

/-- Left-to-right composition of the scanner: a run that consumes `pre`
completely (from any state) parses `pre ++ ts` as its own nodes followed by
the top-level parse of `ts`.  In particular errors in `ts` surface
unchanged, and nodes already scanned never affect the rest. -/
theorem parseRun_append (ts : List Token) :
    ∀ (pre : List Token) (m : Mode) (ns : List (SyntaxNode × Span)),
      parseRun m pre = .ok ns →
      parseRun m (pre ++ ts) = (parseRun .top ts).map (fun l => ns ++ l) := by
  intro pre
  induction pre with
  | nil =>
    intro m ns h
    cases m with
    | top =>
      simp only [parseRun, Except.ok.injEq] at h
      subst h
      rw [List.nil_append]
      cases hts : parseRun .top ts <;> simp
    | esc errSp acc sp => simp [parseRun] at h
    | neg negSp => simp [parseRun] at h
  | cons t rest ih =>
    intro m ns h
    obtain ⟨tt, sp⟩ := t
    rw [List.cons_append]
    cases m with
    | top =>
      cases tt with
      | ident s =>
        cases hl : opcodeLookup s with
        | none => simp [parseRun, hl] at h
        | some op =>
          simp only [parseRun, hl] at h ⊢
          cases hr : parseRun .top rest with
          | error e => rw [hr] at h; simp at h
          | ok ns' =>
            rw [hr] at h
            simp only [exceptMap_ok, Except.ok.injEq] at h
            subst h
            rw [ih .top ns' hr, mapCons_append_aux]
      | punct c =>
        by_cases hc : c = '<'
        · subst hc
          simp only [parseRun, if_pos rfl] at h ⊢
          exact ih _ _ h
        · by_cases hm : c = '-'
          · subst hm
            simp only [parseRun, if_true] at h ⊢
            exact ih _ _ h
          · simp [parseRun, hc, hm] at h
      | literal s =>
        cases hd : parse_data s sp with
        | error e => simp [parseRun, hd] at h
        | ok x =>
          simp only [parseRun, hd] at h ⊢
          cases hr : parseRun .top rest with
          | error e => rw [hr] at h; simp at h
          | ok ns' =>
            rw [hr] at h
            simp only [exceptMap_ok, Except.ok.injEq] at h
            subst h
            rw [ih .top ns' hr, mapCons_append_aux]
      | group g => simp [parseRun] at h
    | esc errSp acc sp0 =>
      cases hg : isGt ⟨tt, sp⟩ with
      | true =>
        simp only [parseRun, hg, if_true] at h ⊢
        cases hr : parseRun .top rest with
        | error e => rw [hr] at h; simp at h
        | ok ns' =>
          rw [hr] at h
          simp only [exceptMap_ok, Except.ok.injEq] at h
          subst h
          rw [ih .top ns' hr, mapCons_append_aux]
      | false =>
        simp only [parseRun, hg, if_false] at h ⊢
        exact ih _ _ h
    | neg negSp =>
      cases tt with
      | ident s => simp [parseRun] at h
      | punct c => simp [parseRun] at h
      | group g => simp [parseRun] at h
      | literal s =>
        cases hi : parse_int s sp true with
        | error e => simp [parseRun, hi] at h
        | ok x =>
          simp only [parseRun, hi] at h ⊢
          cases hr : parseRun .top rest with
          | error e => rw [hr] at h; simp at h
          | ok ns' =>
            rw [hr] at h
            simp only [exceptMap_ok, Except.ok.injEq] at h
            subst h
            rw [ih .top ns' hr, mapCons_append_aux]

/-- `parse` version of `parseRun_append`. -/
theorem parse_append (pre ts : List Token) (ns : List (SyntaxNode × Span))
    (h : parse pre = .ok ns) :
    parse (pre ++ ts) = (parse ts).map (fun l => ns ++ l) :=
  parseRun_append ts pre .top ns h

/-- The capture loop of `parse_escape` with no `>` in the remaining input
aborts with `UnterminatedEscape` at the `<` token's span, whatever was
captured so far. -/
theorem parseRun_esc_unterminated (ts : List Token) :
    ∀ (errSp : Span) (acc : List Token) (sp : Span), (∀ t ∈ ts, isGt t = false) →
      parseRun (.esc errSp acc sp) ts = .error (.unterminatedEscape errSp) := by
  induction ts with
  | nil => intro errSp acc sp _; rfl
  | cons t rest ih =>
    intro errSp acc sp h
    have ht : isGt t = false := h t (List.mem_cons_self t rest)
    simp only [parseRun, ht, Bool.false_eq_true, if_false]
    exact ih _ _ _ (fun x hx => h x (List.mem_cons_of_mem t hx))

/-- The capture loop of `parse_escape` consumes a `>`-free payload verbatim
and stops at the first `>`: the node holds previously captured tokens plus
the payload, the span is the running join over every consumed token
including the terminator, and scanning then resumes at the top level. -/
theorem parseRun_esc_through (payload : List Token) :
    ∀ (errSp : Span) (acc : List Token) (sp : Span) (gt : Token) (rest : List Token),
      (∀ t ∈ payload, isGt t = false) → isGt gt = true →
      parseRun (.esc errSp acc sp) (payload ++ gt :: rest) =
        (parseRun .top rest).map
          (fun l => (.escape (acc.reverse ++ payload),
                     List.foldl spanJoin sp ((payload ++ [gt]).map Token.span)) :: l) := by
  induction payload with
  | nil =>
    intro errSp acc sp gt rest _ hgt
    simp [parseRun, hgt]
  | cons p ps ih =>
    intro errSp acc sp gt rest h hgt
    have hp : isGt p = false := h p (List.mem_cons_self p ps)
    rw [List.cons_append]
    simp only [parseRun, hp, Bool.false_eq_true, if_false]
    rw [ih errSp (p :: acc) (spanJoin sp p.span) gt rest
      (fun x hx => h x (List.mem_cons_of_mem p hx)) hgt]
    simp [List.reverse_cons, List.append_assoc]

/-- A running span join only moves the lower bound down. -/
theorem spanJoin_foldl_lo (l : List Span) :
    ∀ s : Span, (l.foldl spanJoin s).lo ≤ s.lo := by
  induction l with
  | nil => intro s; exact le_refl _
  | cons x xs ih =>
    intro s
    exact le_trans (ih (spanJoin s x)) (Nat.min_le_left _ _)

/-- A running span join only moves the upper bound up. -/
theorem spanJoin_foldl_hi (l : List Span) :
    ∀ s : Span, s.hi ≤ (l.foldl spanJoin s).hi := by
  induction l with
  | nil => intro s; exact le_refl _
  | cons x xs ih =>
    intro s
    exact le_trans (Nat.le_max_left _ _) (ih (spanJoin s x))

/-- Folding escape-free nodes onto a readable chain appends exactly those
nodes, in order. -/
theorem readPushes_foldl (prog : List (SyntaxNode × Span)) :
    ∀ (b : BuilderExpr) (acc : List (SyntaxNode × Span)),
      (∀ x ∈ prog, isEscapeNode x.1 = false) → readPushes b = some acc →
      readPushes (prog.foldl genStep b) = some (acc ++ prog) := by
  induction prog with
  | nil => intro b acc _ hb; simpa using hb
  | cons x xs ih =>
    intro b acc h hb
    obtain ⟨nd, sp⟩ := x
    rw [List.foldl_cons]
    have hxs : ∀ y ∈ xs, isEscapeNode y.1 = false :=
      fun y hy => h y (List.mem_cons_of_mem _ hy)
    cases nd with
    | escape e =>
      have := h ⟨.escape e, sp⟩ (List.mem_cons_self _ _)
      simp [isEscapeNode] at this
    | opcode op =>
      rw [ih _ (acc ++ [(.opcode op, sp)]) hxs (by simp [genStep, readPushes, hb])]
      simp
    | bytes bs =>
      rw [ih _ (acc ++ [(.bytes bs, sp)]) hxs (by simp [genStep, readPushes, hb])]
      simp
    | int n =>
      rw [ih _ (acc ++ [(.int n, sp)]) hxs (by simp [genStep, readPushes, hb])]
      simp

/-- Folding nodes onto a chain adds one shim per escape node. -/
theorem shimCountB_foldl (prog : List (SyntaxNode × Span)) :
    ∀ b : BuilderExpr, shimCountB (prog.foldl genStep b) = shimCountB b + countEscapes prog := by
  induction prog with
  | nil => intro b; simp [countEscapes]
  | cons x xs ih =>
    intro b
    obtain ⟨nd, sp⟩ := x
    rw [List.foldl_cons]
    cases nd with
    | opcode op => simp [genStep, shimCountB, countEscapes, List.countP_cons, isEscapeNode, ih]
    | escape e =>
      simp [genStep, shimCountB, countEscapes, List.countP_cons, isEscapeNode, ih]
      omega
    | bytes bs => simp [genStep, shimCountB, countEscapes, List.countP_cons, isEscapeNode, ih]
    | int n => simp [genStep, shimCountB, countEscapes, List.countP_cons, isEscapeNode, ih]

/-- Every canonical opcode name passes the `Ident::new` validity check. -/
theorem opcodeName_validIdent : ∀ i : Fin 256, isValidIdent (opcodeName i.val) = true := by
  intro i
  have hall : opcodeNames.all isValidIdent = true := by decide
  exact List.all_eq_true.mp hall _ (opcodeName_mem_names i.val i.isLt)

/-- The checked generator fold never fails and agrees with the plain one. -/
theorem genStepChecked_foldl (prog : List (SyntaxNode × Span)) :
    ∀ b : BuilderExpr, prog.foldl genStepChecked (some b) = some (prog.foldl genStep b) := by
  induction prog with
  | nil => intro b; rfl
  | cons x xs ih =>
    intro b
    obtain ⟨nd, sp⟩ := x
    rw [List.foldl_cons, List.foldl_cons]
    cases nd with
    | opcode op =>
      rw [show genStepChecked (some b) (.opcode op, sp) = some (genStep b (.opcode op, sp)) by
        simp [genStepChecked, genStep, opcodeName_validIdent op]]
      exact ih _
    | escape e => exact ih _
    | bytes bs => exact ih _
    | int n => exact ih _

/-- Claim C8: the opcode table holds exactly 256 entries, one per opcode
value `0..=255`, keyed by pairwise distinct canonical display names;
lookup by exact name returns the registered opcode for every canonical
name and `none` for every other string.  (Last registered wins is the
lookup's definition; with distinct names it is never exercised.  The table
is a `lazy_static` constant: built once, never mutated, modelled as a plain
definition.) -/
theorem opcode_table_complete :
    OPCODES.length = 256
    ∧ (OPCODES.map Prod.fst).Nodup
    ∧ (∀ i : Fin 256, opcodeLookup (opcodeName i.val) = some i)
    ∧ (∀ s : String, (∀ i : Fin 256, opcodeName i.val ≠ s) → opcodeLookup s = none) := by
  refine ⟨?_, ?_, ?_, opcodeLookup_none⟩
  · simp [OPCODES]
  · rw [OPCODES_keys_eval]; exact opcodeNames_nodup
  · intro i
    have h := opcodeLookup_name i.val i.isLt
    have hofn : (Fin.ofNat i.val : Fin 256) = i := by
      apply Fin.ext
      show i.val % 256 = i.val
      exact Nat.mod_eq_of_lt i.isLt
    rw [hofn] at h
    exact h

/-- Witness for C8: `OP_HASH160` is found (opcode `0xa9` = 169) and a
non-name misses. -/
theorem opcode_table_complete_witness :
    opcodeLookup "OP_HASH160" = some (169 : Fin 256)
    ∧ opcodeLookup "NOT_AN_OPCODE" = none := by
  constructor
  · have h := opcode_table_complete.2.2.1 (169 : Fin 256)
    rwa [show opcodeName (169 : Fin 256).val = "OP_HASH160" from rfl] at h
  · refine opcode_table_complete.2.2.2 "NOT_AN_OPCODE" ?_
    intro i hcontra
    have hmem : opcodeName i.val ∈ opcodeNames := opcodeName_mem_names i.val i.isLt
    rw [hcontra] at hmem
    exact (by decide : "NOT_AN_OPCODE" ∉ opcodeNames) hmem

/-- Claim C9: generation is total.  For every parsed program — every list
of `Opcode`/`Bytes`/`Int`/`Escape` nodes — `generate` is a total function,
and the checked generator, in which the one fallible construction
(`Ident::new` on an opcode's display name in `generate_opcode`) is made
explicit, succeeds on all 256 opcode values and all byte/integer/escape
payloads, returning exactly `generate`'s output. -/
theorem generate_total :
    ∀ prog : List (SyntaxNode × Span), generateChecked prog = some (generate prog) := by
  intro prog
  unfold generateChecked generate
  rw [genStepChecked_foldl prog BuilderExpr.newBuilder]
  rfl

/-- Claim C2: one shim per escape occurrence, wrapping the chain built so
far together with the payload; every later node chains off the shim's
result; the shim's dispatch pushes byte sequences via the byte push, i64
values via the integer push, and public keys via the key push. -/
theorem generate_escape_shim_structure :
    (∀ (pre post : List (SyntaxNode × Span)) (e : List Token) (sp : Span),
      generate (pre ++ (.escape e, sp) :: post) =
        .intoScript (post.foldl genStep (.shim (pre.foldl genStep .newBuilder) e sp)))
    ∧ (∀ prog : List (SyntaxNode × Span),
        shimCountB (genBuilder (generate prog)) = countEscapes prog)
    ∧ (∀ (b bs : List Nat), pushable b (.bytes bs) = builderPushSlice b bs)
    ∧ (∀ (b : List Nat) (n : Int), pushable b (.int n) = builderPushInt b n)
    ∧ (∀ (b : List Nat) (k : PublicKey), pushable b (.key k) = builderPushKey b k) := by
  refine ⟨?_, ?_, fun _ _ => rfl, fun _ _ => rfl, fun _ _ => rfl⟩
  · intro pre post e sp
    unfold generate
    rw [List.foldl_append, List.foldl_cons]
    rfl
  · intro prog
    unfold generate genBuilder
    rw [shimCountB_foldl]
    simp [shimCountB]

/-- Claim C4: an escape-free program of any length generates one linear
chain — `Builder::new()`, then exactly the program's push calls in source
order, then one `.into_script()` — with no shim anywhere (that is what
`readPushes` succeeding asserts). -/
theorem generate_escape_free_linear (prog : List (SyntaxNode × Span))
    (h : ∀ x ∈ prog, isEscapeNode x.1 = false) :
    readPushes (genBuilder (generate prog)) = some prog := by
  unfold generate genBuilder
  simpa using readPushes_foldl prog .newBuilder [] h rfl

/-- Witness for C4 at a concrete three-node program. -/
theorem generate_escape_free_linear_witness :
    readPushes (genBuilder (generate
        [(.opcode 169, ⟨0, 0⟩), (.int 5, ⟨1, 1⟩), (.bytes [1, 2], ⟨2, 2⟩)])) =
      some [(.opcode 169, ⟨0, 0⟩), (.int 5, ⟨1, 1⟩), (.bytes [1, 2], ⟨2, 2⟩)] :=
  generate_escape_free_linear _ (by decide)

/-- Claim C3: a `<` begins a verbatim capture ended by the first `>` token
(no nesting awareness: the payload is exactly the tokens with no top-level
`>`, whatever else they contain), the node's payload is exactly those
tokens, the node's span is the join running from the `<` token through the
`>` token (so it covers both delimiters), scanning resumes after the `>`;
with no `>` before end of input the whole parse aborts with
`UnterminatedEscape`. -/
theorem parse_escape_capture (ltSp : Span) (payload : List Token)
    (hp : ∀ t ∈ payload, isGt t = false) :
    (∀ (gt : Token) (rest : List Token), isGt gt = true →
      parse (⟨.punct '<', ltSp⟩ :: (payload ++ gt :: rest)) =
        (parse rest).map
          (fun l => (.escape payload,
            List.foldl spanJoin ltSp ((payload ++ [gt]).map Token.span)) :: l)
      ∧ (List.foldl spanJoin ltSp ((payload ++ [gt]).map Token.span)).lo ≤ ltSp.lo
      ∧ ltSp.hi ≤ (List.foldl spanJoin ltSp ((payload ++ [gt]).map Token.span)).hi
      ∧ gt.span.hi ≤ (List.foldl spanJoin ltSp ((payload ++ [gt]).map Token.span)).hi)
    ∧ parse (⟨.punct '<', ltSp⟩ :: payload) = .error (.unterminatedEscape ltSp) := by
  constructor
  · intro gt rest hgt
    refine ⟨?_, spanJoin_foldl_lo _ _, spanJoin_foldl_hi _ _, ?_⟩
    · have hstep : parse (⟨.punct '<', ltSp⟩ :: (payload ++ gt :: rest)) =
          parseRun (.esc ltSp [] ltSp) (payload ++ gt :: rest) := rfl
      rw [hstep, parseRun_esc_through payload ltSp [] ltSp gt rest hp hgt]
      simp [parse]
    · rw [List.map_append, List.foldl_append]
      exact Nat.le_max_right _ _
  · have hstep : parse (⟨.punct '<', ltSp⟩ :: payload) =
        parseRun (.esc ltSp [] ltSp) payload := rfl
    rw [hstep]
    exact parseRun_esc_unterminated payload ltSp [] ltSp hp

/-- Witness for C3: `< abc >` captures `abc` verbatim with span `0..2`,
and `< abc` (no terminator) aborts. -/
theorem parse_escape_capture_witness :
    parse [⟨.punct '<', ⟨0, 0⟩⟩, ⟨.ident "abc", ⟨1, 1⟩⟩, ⟨.punct '>', ⟨2, 2⟩⟩] =
      .ok [(.escape [⟨.ident "abc", ⟨1, 1⟩⟩], ⟨0, 2⟩)]
    ∧ parse [⟨.punct '<', ⟨0, 0⟩⟩, ⟨.ident "abc", ⟨1, 1⟩⟩] =
      .error (.unterminatedEscape ⟨0, 0⟩) := by
  have h := parse_escape_capture ⟨0, 0⟩ [⟨.ident "abc", ⟨1, 1⟩⟩] (by decide)
  exact ⟨((h.1 ⟨.punct '>', ⟨2, 2⟩⟩ [] (by decide)).1).trans (by rfl), h.2⟩

/-- Claim C5: the canonical end-to-end fixture.  Parsing the DSL program
`OP_HASH160 1234 255 -1 -255 0xabcd`, generating the builder chain, and
evaluating it through the (externally modelled) builder yields exactly the
fixture's byte sequence. -/
theorem end_to_end_fixture :
    (parse fixtureTokens).map (fun prog => evalScript (fun _ => .int 0) (generate prog)) =
      .ok [169, 2, 210, 4, 2, 255, 0, 79, 2, 255, 128, 2, 171, 205] := by
  rfl

/-- A literal whose text is `0x`-prefixed never parses as a base-10 i64:
the `x` fails the digit check (so negative hex literals are impossible). -/
theorem parseI64_hex_prefixed (tail : List Char) :
    parseI64 (String.mk ('0' :: 'x' :: tail)) = none := by
  have h1 : parseI64 (String.mk ('0' :: 'x' :: tail)) =
      (match parseDigits ('0' :: 'x' :: tail) with
       | some n => if (n : Int) ≤ 2 ^ 63 - 1 then some (n : Int) else none
       | none => none) := rfl
  have h2 : parseDigits ('0' :: 'x' :: tail) = none := by
    unfold parseDigits
    rw [if_neg]
    intro hcon
    have hall := hcon.2
    rw [List.all_cons, List.all_cons] at hall
    simp at hall
  rw [h1, h2]

/-- Claim C1 (amended): error propagation.  After any successfully scanned
prefix, each of the six diagnostics aborts the whole invocation at the
offending token: the fatal pair `UnterminatedEscape`/`UnexpectedToken` by
design, and the four `emit_error!` diagnostics (`UnknownOpcode`,
`InvalidHexLiteral`, `InvalidNumberLiteral`, `MalformedNegation`) equally —
the diagnostic (kind and span) is produced, but no placeholder node is
substituted and scanning never continues (the result is the same error for
every continuation `rest`), so one invocation reports at most one error. -/
theorem parse_error_propagation (pre : List Token) (ns : List (SyntaxNode × Span))
    (h : parse pre = .ok ns) :
    (∀ (s : String) (sp : Span) (rest : List Token), opcodeLookup s = none →
      parse (pre ++ ⟨.ident s, sp⟩ :: rest) = .error (.unknownOpcode sp s))
    ∧ (∀ (sp : Span) (rest : List Token), (∀ t ∈ rest, isGt t = false) →
      parse (pre ++ ⟨.punct '<', sp⟩ :: rest) = .error (.unterminatedEscape sp))
    ∧ (∀ (s : String) (sp : Span) (rest : List Token),
        hexPrefixed s = true → hexDecodeChars (s.data.drop 2) = none →
      parse (pre ++ ⟨.literal s, sp⟩ :: rest) = .error (.invalidHexLiteral sp))
    ∧ (∀ (s : String) (sp : Span) (rest : List Token),
        hexPrefixed s = false → parseI64 s = none →
      parse (pre ++ ⟨.literal s, sp⟩ :: rest) = .error (.invalidNumberLiteral sp))
    ∧ (∀ (sp : Span) (t2 : Token) (rest : List Token), isLiteralTok t2 = false →
      parse (pre ++ ⟨.punct '-', sp⟩ :: t2 :: rest) = .error (.malformedNegation sp))
    ∧ (∀ sp : Span, parse (pre ++ [⟨.punct '-', sp⟩]) = .error (.malformedNegation sp))
    ∧ (∀ (c : Char) (sp : Span) (rest : List Token), c ≠ '<' → c ≠ '-' →
      parse (pre ++ ⟨.punct c, sp⟩ :: rest) = .error (.unexpectedToken sp)) := by
  refine ⟨?_, ?_, ?_, ?_, ?_, ?_, ?_⟩
  · intro s sp rest hl
    rw [parse_append pre _ ns h]
    have hx : parse (⟨.ident s, sp⟩ :: rest) = .error (.unknownOpcode sp s) := by
      simp [parse, parseRun, hl]
    rw [hx, exceptMap_error]
  · intro sp rest hr
    rw [parse_append pre _ ns h]
    have hstep : parse (⟨.punct '<', sp⟩ :: rest) = parseRun (.esc sp [] sp) rest := rfl
    rw [hstep, parseRun_esc_unterminated rest sp [] sp hr, exceptMap_error]
  · intro s sp rest hhex hdec
    rw [parse_append pre _ ns h]
    have hd : parse_data s sp = .error (.invalidHexLiteral sp) := by
      simp [parse_data, hhex, parse_bytes, hdec]
    have hx : parse (⟨.literal s, sp⟩ :: rest) = .error (.invalidHexLiteral sp) := by
      simp [parse, parseRun, hd]
    rw [hx, exceptMap_error]
  · intro s sp rest hhex hnum
    rw [parse_append pre _ ns h]
    have hd : parse_data s sp = .error (.invalidNumberLiteral sp) := by
      simp [parse_data, hhex, parse_int, hnum]
    have hx : parse (⟨.literal s, sp⟩ :: rest) = .error (.invalidNumberLiteral sp) := by
      simp [parse, parseRun, hd]
    rw [hx, exceptMap_error]
  · intro sp t2 rest hlit
    rw [parse_append pre _ ns h]
    obtain ⟨tt2, sp2⟩ := t2
    cases tt2 with
    | literal s2 => simp [isLiteralTok] at hlit
    | ident s2 => rfl
    | punct c2 => rfl
    | group g2 => rfl
  · intro sp
    rw [parse_append pre _ ns h]
    rfl
  · intro c sp rest hc hm
    rw [parse_append pre _ ns h]
    have hx : parse (⟨.punct c, sp⟩ :: rest) = .error (.unexpectedToken sp) := by
      simp [parse, parseRun, hc, hm]
    rw [hx, exceptMap_error]

/-- Witness for C1: after one good token, an unknown identifier aborts with
its diagnostic no matter what follows. -/
theorem parse_error_propagation_witness :
    parse [⟨.ident "OP_NOP", ⟨0, 0⟩⟩, ⟨.ident "NOT_AN_OPCODE", ⟨1, 1⟩⟩,
           ⟨.ident "OP_DUP", ⟨2, 2⟩⟩] =
      .error (.unknownOpcode ⟨1, 1⟩ "NOT_AN_OPCODE") :=
  (parse_error_propagation [⟨.ident "OP_NOP", ⟨0, 0⟩⟩] [(.opcode 97, ⟨0, 0⟩)] (by rfl)).1
    "NOT_AN_OPCODE" ⟨1, 1⟩ [⟨.ident "OP_DUP", ⟨2, 2⟩⟩] (by rfl)

/-- Counterexample to C1 as stated: an unknown identifier is not
recoverable — no no-op placeholder is substituted and scanning does not
continue to end of input; the invocation aborts at the first offending
token (the claim predicts a two-node result carrying a diagnostic). -/
theorem unknown_opcode_aborts_cex :
    parse [⟨.ident "NOT_AN_OPCODE", ⟨0, 0⟩⟩, ⟨.ident "OP_NOP", ⟨1, 1⟩⟩] =
      .error (.unknownOpcode ⟨0, 0⟩ "NOT_AN_OPCODE") := by
  rfl

/-- Claim C6 (amended): a literal whose text begins with `0x` decodes its
remainder from hex into a `Bytes` node and scanning continues; an odd digit
count or an invalid digit yields `InvalidHexLiteral`, which aborts the
parse invocation — no empty-bytes placeholder, no continuation. -/
theorem parse_hex_literals (pre : List Token) (ns : List (SyntaxNode × Span))
    (h : parse pre = .ok ns) :
    (∀ (tail : List Char) (sp : Span) (rest : List Token) (bs : List Nat),
      hexDecodeChars tail = some bs →
      parse (pre ++ ⟨.literal (String.mk ('0' :: 'x' :: tail)), sp⟩ :: rest) =
        (parse rest).map (fun l => ns ++ (.bytes bs, sp) :: l))
    ∧ (∀ (tail : List Char) (sp : Span) (rest : List Token),
      hexDecodeChars tail = none →
      parse (pre ++ ⟨.literal (String.mk ('0' :: 'x' :: tail)), sp⟩ :: rest) =
        .error (.invalidHexLiteral sp)) := by
  constructor
  · intro tail sp rest bs hdec
    rw [parse_append pre _ ns h]
    have hd : parse_data (String.mk ('0' :: 'x' :: tail)) sp = .ok (.bytes bs, sp) := by
      simp [parse_data, hexPrefixed, parse_bytes, hdec]
    have hx : parse (⟨.literal (String.mk ('0' :: 'x' :: tail)), sp⟩ :: rest) =
        (parse rest).map (fun l => (.bytes bs, sp) :: l) := by
      simp [parse, parseRun, hd]
    rw [hx]
    cases parse rest <;> simp
  · intro tail sp rest hdec
    rw [parse_append pre _ ns h]
    have hd : parse_data (String.mk ('0' :: 'x' :: tail)) sp =
        .error (.invalidHexLiteral sp) := by
      simp [parse_data, hexPrefixed, parse_bytes, hdec]
    have hx : parse (⟨.literal (String.mk ('0' :: 'x' :: tail)), sp⟩ :: rest) =
        .error (.invalidHexLiteral sp) := by
      simp [parse, parseRun, hd]
    rw [hx, exceptMap_error]

/-- Witness for C6: `0x01020304` gives `Bytes([1,2,3,4])`; `0x123` (odd
digit count) aborts with `InvalidHexLiteral`. -/
theorem parse_hex_literals_witness :
    parse [⟨.literal "0x01020304", ⟨0, 0⟩⟩] = .ok [(.bytes [1, 2, 3, 4], ⟨0, 0⟩)]
    ∧ parse [⟨.literal "0x123", ⟨0, 0⟩⟩] = .error (.invalidHexLiteral ⟨0, 0⟩) := by
  have h := parse_hex_literals [] [] (by rfl)
  exact ⟨(h.1 ['0', '1', '0', '2', '0', '3', '0', '4'] ⟨0, 0⟩ [] [1, 2, 3, 4]
      (by rfl)).trans (by rfl),
    h.2 ['1', '2', '3'] ⟨0, 0⟩ [] (by rfl)⟩

/-- Counterexample to C6 as stated: an invalid hex literal is not
recoverable — no `Bytes([])` placeholder is substituted and scanning does
not continue past it; the invocation aborts (the claim predicts a two-node
result carrying a diagnostic). -/
theorem invalid_hex_aborts_cex :
    parse [⟨.literal "0x123", ⟨0, 0⟩⟩, ⟨.ident "OP_NOP", ⟨1, 1⟩⟩] =
      .error (.invalidHexLiteral ⟨0, 0⟩) := by
  rfl

/-- Claim C7 (amended): a `-` must be immediately followed by a literal
token; a literal follower's text is parsed as a base-10 signed integer and
negated (`-1234` gives `Int(-1234)`); a `0x`-prefixed follower always fails
that parse, so negative hex literals are unsupported; a missing follower or
a non-literal follower yields `MalformedNegation`, which aborts the parse
invocation — no `Int(0)` placeholder, no continuation. -/
theorem parse_negation (pre : List Token) (ns : List (SyntaxNode × Span))
    (h : parse pre = .ok ns) :
    (∀ (s : String) (sp sp2 : Span) (rest : List Token) (n : Int),
      parseI64 s = some n →
      parse (pre ++ ⟨.punct '-', sp⟩ :: ⟨.literal s, sp2⟩ :: rest) =
        (parse rest).map (fun l => ns ++ (.int (-n), sp2) :: l))
    ∧ (∀ (sp : Span) (t2 : Token) (rest : List Token), isLiteralTok t2 = false →
      parse (pre ++ ⟨.punct '-', sp⟩ :: t2 :: rest) = .error (.malformedNegation sp))
    ∧ (∀ sp : Span, parse (pre ++ [⟨.punct '-', sp⟩]) = .error (.malformedNegation sp))
    ∧ (∀ tail : List Char, parseI64 (String.mk ('0' :: 'x' :: tail)) = none) := by
  refine ⟨?_, ?_, ?_, parseI64_hex_prefixed⟩
  · intro s sp sp2 rest n hn
    rw [parse_append pre _ ns h]
    have hi : parse_int s sp2 true = .ok (.int (-n), sp2) := by
      simp [parse_int, hn]
    have hx : parse (⟨.punct '-', sp⟩ :: ⟨.literal s, sp2⟩ :: rest) =
        (parse rest).map (fun l => (.int (-n), sp2) :: l) := by
      simp [parse, parseRun, hi]
    rw [hx]
    cases parse rest <;> simp
  · intro sp t2 rest hlit
    rw [parse_append pre _ ns h]
    obtain ⟨tt2, sp2⟩ := t2
    cases tt2 with
    | literal s2 => simp [isLiteralTok] at hlit
    | ident s2 => rfl
    | punct c2 => rfl
    | group g2 => rfl
  · intro sp
    rw [parse_append pre _ ns h]
    rfl

/-- Witness for C7: `- 1234` parses to `Int(-1234)`; `- OP_NOP` aborts with
`MalformedNegation`. -/
theorem parse_negation_witness :
    parse [⟨.punct '-', ⟨0, 0⟩⟩, ⟨.literal "1234", ⟨1, 1⟩⟩] = .ok [(.int (-1234), ⟨1, 1⟩)]
    ∧ parse [⟨.punct '-', ⟨0, 0⟩⟩, ⟨.ident "OP_NOP", ⟨1, 1⟩⟩] =
      .error (.malformedNegation ⟨0, 0⟩) := by
  have h := parse_negation [] [] (by rfl)
  exact ⟨(h.1 "1234" ⟨0, 0⟩ ⟨1, 1⟩ [] 1234 (by rfl)).trans (by rfl),
    h.2.1 ⟨0, 0⟩ ⟨.ident "OP_NOP", ⟨1, 1⟩⟩ [] (by rfl)⟩

/-- Counterexample to C7 as stated: a malformed negation is not recoverable
— no `Int(0)` placeholder is substituted and scanning does not continue;
the invocation aborts (the claim predicts a result carrying a diagnostic
and continuing over the remaining valid token). -/
theorem malformed_negation_aborts_cex :
    parse [⟨.punct '-', ⟨0, 0⟩⟩, ⟨.ident "OP_NOP", ⟨1, 1⟩⟩, ⟨.ident "OP_NOP", ⟨2, 2⟩⟩] =
      .error (.malformedNegation ⟨0, 0⟩) := by
  rfl

/-- Claim C10: a `-` followed by a hex-prefixed literal is accepted as a
negation follower (it is a literal, so no `MalformedNegation`), and the
literal's full text — `0x` prefix included — is parsed as base-10, which
always fails and yields `InvalidNumberLiteral` at the literal's span;
consequently a `-`+literal pair never contributes a `Bytes` node: whenever
it parses successfully, the node it contributes is an `Int`. -/
theorem negated_hex_literal (pre : List Token) (ns : List (SyntaxNode × Span))
    (h : parse pre = .ok ns) :
    (∀ (tail : List Char) (sp sp2 : Span) (rest : List Token),
      parse (pre ++ ⟨.punct '-', sp⟩ ::
          ⟨.literal (String.mk ('0' :: 'x' :: tail)), sp2⟩ :: rest) =
        .error (.invalidNumberLiteral sp2))
    ∧ (∀ (s : String) (sp sp2 : Span) (rest : List Token) (out : List (SyntaxNode × Span)),
      parse (pre ++ ⟨.punct '-', sp⟩ :: ⟨.literal s, sp2⟩ :: rest) = .ok out →
      ∃ (n : Int) (l : List (SyntaxNode × Span)), out = ns ++ (.int n, sp2) :: l) := by
  constructor
  · intro tail sp sp2 rest
    rw [parse_append pre _ ns h]
    have hi : parse_int (String.mk ('0' :: 'x' :: tail)) sp2 true =
        .error (.invalidNumberLiteral sp2) := by
      simp [parse_int, parseI64_hex_prefixed tail]
    have hx : parse (⟨.punct '-', sp⟩ ::
        ⟨.literal (String.mk ('0' :: 'x' :: tail)), sp2⟩ :: rest) =
        .error (.invalidNumberLiteral sp2) := by
      simp [parse, parseRun, hi]
    rw [hx, exceptMap_error]
  · intro s sp sp2 rest out hout
    rw [parse_append pre _ ns h] at hout
    cases hn : parseI64 s with
    | none =>
      have hx : parse (⟨.punct '-', sp⟩ :: ⟨.literal s, sp2⟩ :: rest) =
          .error (.invalidNumberLiteral sp2) := by
        simp [parse, parseRun, parse_int, hn]
      rw [hx] at hout
      simp at hout
    | some n =>
      have hx : parse (⟨.punct '-', sp⟩ :: ⟨.literal s, sp2⟩ :: rest) =
          (parse rest).map (fun l => (.int (-n), sp2) :: l) := by
        simp [parse, parseRun, parse_int, hn]
      rw [hx] at hout
      cases hr : parse rest with
      | error e => rw [hr] at hout; simp at hout
      | ok l =>
        rw [hr] at hout
        simp only [exceptMap_ok, Except.ok.injEq] at hout
        exact ⟨-n, l, hout.symm⟩

/-- Witness for C10: `- 0xab` aborts with `InvalidNumberLiteral` at the
literal's span (not `MalformedNegation`, not a `Bytes` node). -/
theorem negated_hex_literal_witness :
    parse [⟨.punct '-', ⟨0, 0⟩⟩, ⟨.literal "0xab", ⟨1, 1⟩⟩] =
      .error (.invalidNumberLiteral ⟨1, 1⟩) :=
  (negated_hex_literal [] [] (by rfl)).1 ['a', 'b'] ⟨0, 0⟩ ⟨1, 1⟩ []
